import Mathlib

/-!
Verification of the positioned-io core: the `ReadAt`/`WriteAt`/`Size`
capability contract, the `Slice` adapter (src/slice.rs) and the `Cursor`
adapter (src/cursor.rs), shallowly embedded in Lean.

Modelling conventions:
* `u64` values are `Nat`s; additions the source performs with plain `+`
  (which wrap modulo 2^64 in release builds) are written `% U64` explicitly;
  `saturating_sub` on `u64` is exactly truncated `Nat` subtraction, and
  `saturating_add` is written with `min`.
* `i64` values are `Int`s; the casts `as i64` / `as u64` and wrapping `i64`
  addition are the explicit functions `u64AsI64`, `i64AsU64`, `i64Wrap`.
* Buffers are `List Nat`. A Rust `read_at(pos, &mut buf[..bytes])` call,
  which fills the front of the caller's buffer in place, is modelled by the
  callee returning the new front segment, which the caller reattaches ahead
  of the untouched tail `buf.drop bytes`.
* Fallible calls return `Except IoErr`; `&mut self` methods return the new
  state next to the result, and on an error path the state handed back is
  the unmodified input, mirroring the source's early returns.
-/

deriving instance DecidableEq for Except

namespace PositionedIo

/-- Kinds of I/O errors used by the adapters (`std::io::ErrorKind`). -/
inductive IoErrKind
  | invalidInput
  | invalidData
  | other
  deriving DecidableEq, Repr

/-- An I/O error: a kind plus a message (`std::io::Error::new(kind, msg)`). -/
structure IoErr where
  kind : IoErrKind
  msg : String
  deriving DecidableEq, Repr

/-- The modulus of `u64` arithmetic, 2^64. -/
def U64 : Nat := 2 ^ 64

/-- `u64::max_value()`, the sentinel for an unbounded `Slice`. -/
def U64MAX : Nat := 2 ^ 64 - 1

/-- The Rust cast `n as i64` applied to a `u64`: two's-complement
reinterpretation. -/
def u64AsI64 (n : Nat) : Int :=
  if n < 2 ^ 63 then (n : Int) else (n : Int) - 2 ^ 64

/-- Wrapping `i64` arithmetic: reduce an unbounded integer into
`[-2^63, 2^63)` modulo 2^64 (release-mode overflow semantics). -/
def i64Wrap (x : Int) : Int := (x + 2 ^ 63) % 2 ^ 64 - 2 ^ 63

/-- The Rust cast `x as u64` applied to an `i64`: two's-complement
reinterpretation, i.e. reduction modulo 2^64. -/
def i64AsU64 (x : Int) : Nat := (x % (2 ^ 64 : Int)).toNat

/-- The `ReadAt` trait: positioned read. `read_at io pos buf` returns the
byte count together with the refreshed buffer (new front, untouched tail). -/
class ReadAt (I : Type) where
  read_at : I → Nat → List Nat → Except IoErr (Nat × List Nat)

/-- The `WriteAt` trait: positioned write plus flush; `&mut self` is
modelled by returning the new resource state. -/
class WriteAt (I : Type) where
  write_at : I → Nat → List Nat → Except IoErr (Nat × I)
  flush : I → Except IoErr I

/-- The `Size` trait: report the total size, `none` meaning unknown. -/
class Size (I : Type) where
  size : I → Except IoErr (Option Nat)

/-- One bound of a `RangeBounds<u64>` (`std::ops::Bound`). -/
inductive Bnd
  | included (n : Nat)
  | excluded (n : Nat)
  | unbounded
  deriving DecidableEq, Repr

/-- A `RangeBounds<u64>` value: a start bound and an end bound. -/
structure RangeB where
  startB : Bnd
  endB : Bnd
  deriving DecidableEq, Repr

/-- `Slice<I>` from src/slice.rs: a window into another positioned I/O. -/
structure Slice (I : Type) where
  io : I
  offset : Nat
  size : Nat
  deriving DecidableEq, Repr

/-- `Slice::new` (src/slice.rs lines 66-82): derive `offset` and `size`
from the range bounds with saturating arithmetic. -/
def Slice.new {I : Type} (io : I) (bounds : RangeB) : Slice I :=
  let offset : Nat :=
    match bounds.startB with
    | .included s => s
    | .excluded s => min (s + 1) U64MAX
    | .unbounded => 0
  let size : Nat :=
    match bounds.endB with
    | .included e => if e = U64MAX then min ((e - offset) + 1) U64MAX else (e + 1) - offset
    | .excluded e => e - offset
    | .unbounded => U64MAX
  ⟨io, offset, size⟩

/-- `Slice::avail` (src/slice.rs lines 85-87):
`min(self.size.saturating_sub(pos), bytes as u64) as usize`. -/
def Slice.avail {I : Type} (s : Slice I) (pos : Nat) (bytes : Nat) : Nat :=
  min (s.size - pos) bytes

/-- `Slice::new_to_end` (src/slice.rs lines 94-99): a slice running to the
wrapped object's reported end; every non-`Ok(Some _)` size result is
replaced by an `InvalidData` error. -/
def Slice.new_to_end {I : Type} [Size I] (io : I) (offset : Nat) : Except IoErr (Slice I) :=
  match Size.size io with
  | .ok (some sz) => .ok (Slice.new io ⟨.included offset, .excluded sz⟩)
  | _ => .error ⟨.invalidData, "unknown base size"⟩

/-- `impl ReadAt for Slice` (src/slice.rs lines 102-107): clip the buffer
to `avail` bytes and delegate at the translated offset. -/
instance {I : Type} [ReadAt I] : ReadAt (Slice I) where
  read_at s pos buf :=
    let bytes := s.avail pos buf.length
    match ReadAt.read_at s.io ((pos + s.offset) % U64) (buf.take bytes) with
    | .ok (n, pre) => .ok (n, pre ++ buf.drop bytes)
    | .error e => .error e

/-- `impl WriteAt for Slice` (src/slice.rs lines 109-118): clip the buffer
to `avail` bytes and delegate at the translated offset; flush delegates. -/
instance {I : Type} [WriteAt I] : WriteAt (Slice I) where
  write_at s pos buf :=
    let bytes := s.avail pos buf.length
    match WriteAt.write_at s.io ((pos + s.offset) % U64) (buf.take bytes) with
    | .ok (n, io2) => .ok (n, { s with io := io2 })
    | .error e => .error e
  flush s :=
    match WriteAt.flush s.io with
    | .ok io2 => .ok { s with io := io2 }
    | .error e => .error e

/-- `impl Size for Slice` (src/slice.rs lines 120-128): the sentinel
`u64::max_value()` reads back as "unknown". -/
instance {I : Type} : Size (Slice I) where
  size s := if s.size = U64MAX then .ok none else .ok (some s.size)

/-- `SeekFrom` (std::io::SeekFrom): `Start(u64)`, `Current(i64)`,
`End(i64)`. -/
inductive SeekFrom
  | start (p : Nat)
  | current (p : Int)
  | fromEnd (p : Int)
  deriving DecidableEq, Repr

/-- `Cursor<I>` from src/cursor.rs: a wrapped positioned I/O plus a `u64`
stream position. -/
structure Cursor (I : Type) where
  io : I
  pos : Nat
  deriving DecidableEq, Repr

/-- `Cursor::new_pos` (src/cursor.rs lines 65-67). -/
def Cursor.new_pos {I : Type} (io : I) (pos : Nat) : Cursor I := ⟨io, pos⟩

/-- `Cursor::new` (src/cursor.rs lines 73-75). -/
def Cursor.new {I : Type} (io : I) : Cursor I := Cursor.new_pos io 0

/-- `Cursor::into_inner` (src/cursor.rs lines 79-81). -/
def Cursor.into_inner {I : Type} (c : Cursor I) : I := c.io

/-- `Cursor::position` (src/cursor.rs lines 97-99). -/
def Cursor.position {I : Type} (c : Cursor I) : Nat := c.pos

/-- `Cursor::set_position` (src/cursor.rs lines 103-105). -/
def Cursor.set_position {I : Type} (c : Cursor I) (pos : Nat) : Cursor I :=
  { c with pos := pos }

/-- `impl Read for Cursor` (src/cursor.rs lines 108-114): delegate to
`read_at` at `pos`, then advance `pos` by the bytes read (u64 wrap);
on error the `?` operator returns before `pos` is touched. -/
def Cursor.read {I : Type} [ReadAt I] (c : Cursor I) (buf : List Nat) :
    Except IoErr (Nat × List Nat) × Cursor I :=
  match ReadAt.read_at c.io c.pos buf with
  | .error e => (.error e, c)
  | .ok (n, buf2) => (.ok (n, buf2), { c with pos := (c.pos + n) % U64 })

/-- `impl Write for Cursor` (src/cursor.rs lines 116-128): delegate to
`write_at` at `pos`, then advance `pos` by the bytes written (u64 wrap);
on error the `?` operator returns before `pos` is touched. -/
def Cursor.write {I : Type} [WriteAt I] (c : Cursor I) (buf : List Nat) :
    Except IoErr Nat × Cursor I :=
  match WriteAt.write_at c.io c.pos buf with
  | .error e => (.error e, c)
  | .ok (n, io2) => (.ok n, ⟨io2, (c.pos + n) % U64⟩)

/-- `Write::flush` for `Cursor` (src/cursor.rs lines 124-127). -/
def Cursor.flush {I : Type} [WriteAt I] (c : Cursor I) :
    Except IoErr Unit × Cursor I :=
  match WriteAt.flush c.io with
  | .error e => (.error e, c)
  | .ok io2 => (.ok (), { c with io := io2 })

/-- `impl Seek for Cursor` (src/cursor.rs lines 130-151). `Start` stores
the position; `Current` computes `self.pos as i64 + p`, rejecting a
negative result before any mutation; `End` queries the wrapped size and
stores `(end as i64 + p) as u64` with no negativity check. The second
component is the cursor after the call (unchanged on the error paths). -/
def Cursor.seek {I : Type} [Size I] (c : Cursor I) (sf : SeekFrom) :
    Except IoErr Nat × Cursor I :=
  match sf with
  | .start p => (.ok p, { c with pos := p })
  | .current p =>
      let s := i64Wrap (u64AsI64 c.pos + p)
      if s < 0 then
        (.error ⟨.invalidInput, "seek to a negative position"⟩, c)
      else
        (.ok (i64AsU64 s), { c with pos := i64AsU64 s })
  | .fromEnd p =>
      match Size.size c.io with
      | .error e => (.error e, c)
      | .ok none => (.error ⟨.invalidInput, "seek from unknown end"⟩, c)
      | .ok (some n) =>
          let v := i64AsU64 (i64Wrap (u64AsI64 n + p))
          (.ok v, { c with pos := v })

/-- An in-memory byte resource. Modelled from the spec: a size-aware
byte-addressable backing resource implementing the capability contract
(the trait impls for byte buffers are part of this crate but outside
src/). -/
structure ByteStore where
  data : List Nat
  deriving DecidableEq, Repr

/-- Modelled from the spec: `read_at` of an in-memory byte resource copies
`min(buf.len(), size - pos)` bytes starting at `pos` into the front of
`buf` and leaves the rest of `buf` untouched; at or past the end it reads
zero bytes. -/
instance : ReadAt ByteStore where
  read_at st pos buf :=
    let n := min buf.length (st.data.length - pos)
    .ok (n, (st.data.drop pos).take n ++ buf.drop n)

/-- Modelled from the spec: `write_at` of a growable in-memory byte
resource writes the whole buffer at `pos`, zero-filling any gap past the
current end; a write of an empty buffer transfers zero bytes and leaves
the resource unchanged. -/
instance : WriteAt ByteStore where
  write_at st pos buf :=
    if buf.length = 0 then .ok (0, st)
    else
      let padded := st.data ++ List.replicate ((pos + buf.length) - st.data.length) 0
      .ok (buf.length, ⟨padded.take pos ++ buf ++ padded.drop (pos + buf.length)⟩)
  flush st := .ok st

/-- Modelled from the spec: a size-aware resource reports its definite
total length. -/
instance : Size ByteStore where
  size st := .ok (some st.data.length)

/-- A resource whose size query returns a prescribed answer, for
exercising the size-dependent paths of `Cursor::seek` and
`Slice::new_to_end`. -/
structure SizedRes where
  sz : Except IoErr (Option Nat)
  deriving DecidableEq, Repr

instance : Size SizedRes where
  size r := r.sz

/-- A readable resource given by an arbitrary positioned-read function:
any function of offset and buffer is a legitimate `ReadAt`
implementation. -/
structure FunRes where
  f : Nat → List Nat → Except IoErr (Nat × List Nat)

instance : ReadAt FunRes where
  read_at r := r.f

/-- A writable resource given by an arbitrary response function, logging
every delegated call (offset and buffer) so theorems can speak about what
a wrapper passed down. -/
structure FunWRes where
  g : Nat → List Nat → Except IoErr Nat
  log : List (Nat × List Nat)

instance : WriteAt FunWRes where
  write_at r pos buf :=
    match r.g pos buf with
    | .ok n => .ok (n, { r with log := r.log ++ [(pos, buf)] })
    | .error e => .error e
  flush r := .ok r

/-- A `/dev/zero`-like readable resource: every read fills the whole
buffer with the byte 1. -/
def onesRes : FunRes :=
  ⟨fun _ buf => .ok (buf.length, buf.map fun _ => 1)⟩

/-! Equation lemmas restating the instance methods, for rewriting. -/

theorem slice_new_excluded {I : Type} (io : I) (a b : Nat) :
    Slice.new io ⟨.included a, .excluded b⟩ = ⟨io, a, b - a⟩ := rfl

theorem slice_new_unbounded {I : Type} (io : I) (a : Nat) :
    Slice.new io ⟨.included a, .unbounded⟩ = ⟨io, a, U64MAX⟩ := rfl

theorem slice_read_at_def {I : Type} [ReadAt I] (io : I) (o sz pos : Nat) (buf : List Nat) :
    ReadAt.read_at (Slice.mk io o sz) pos buf =
      match ReadAt.read_at io ((pos + o) % U64) (buf.take (min (sz - pos) buf.length)) with
      | .ok (n, pre) => .ok (n, pre ++ buf.drop (min (sz - pos) buf.length))
      | .error e => .error e := rfl

theorem slice_write_at_def {I : Type} [WriteAt I] (io : I) (o sz pos : Nat) (buf : List Nat) :
    WriteAt.write_at (Slice.mk io o sz) pos buf =
      match WriteAt.write_at io ((pos + o) % U64) (buf.take (min (sz - pos) buf.length)) with
      | .ok (n, io2) => .ok (n, Slice.mk io2 o sz)
      | .error e => .error e := rfl

theorem slice_size_def {I : Type} (io : I) (o sz : Nat) :
    Size.size (Slice.mk io o sz) =
      if sz = U64MAX then (.ok none : Except IoErr (Option Nat)) else .ok (some sz) := rfl

theorem byteStore_read_at_def (st : ByteStore) (pos : Nat) (buf : List Nat) :
    ReadAt.read_at st pos buf =
      .ok (min buf.length (st.data.length - pos),
        (st.data.drop pos).take (min buf.length (st.data.length - pos))
          ++ buf.drop (min buf.length (st.data.length - pos))) := rfl

theorem byteStore_write_at_def (st : ByteStore) (pos : Nat) (buf : List Nat) :
    WriteAt.write_at st pos buf =
      if buf.length = 0 then .ok (0, st)
      else
        .ok (buf.length,
          ⟨(st.data ++ List.replicate ((pos + buf.length) - st.data.length) 0).take pos
            ++ buf
            ++ (st.data ++ List.replicate ((pos + buf.length) - st.data.length) 0).drop
                  (pos + buf.length)⟩) := rfl

theorem funRes_read_at_def (f : Nat → List Nat → Except IoErr (Nat × List Nat))
    (pos : Nat) (buf : List Nat) :
    ReadAt.read_at (FunRes.mk f) pos buf = f pos buf := rfl

theorem funWRes_write_at_def (g : Nat → List Nat → Except IoErr Nat)
    (log : List (Nat × List Nat)) (pos : Nat) (buf : List Nat) :
    WriteAt.write_at (FunWRes.mk g log) pos buf =
      match g pos buf with
      | .ok n => .ok (n, FunWRes.mk g (log ++ [(pos, buf)]))
      | .error e => .error e := rfl

theorem cursor_read_def {I : Type} [ReadAt I] (c : Cursor I) (buf : List Nat) :
    Cursor.read c buf =
      match ReadAt.read_at c.io c.pos buf with
      | .error e => (.error e, c)
      | .ok (n, buf2) => (.ok (n, buf2), { c with pos := (c.pos + n) % U64 }) := rfl

theorem cursor_write_def {I : Type} [WriteAt I] (c : Cursor I) (buf : List Nat) :
    Cursor.write c buf =
      match WriteAt.write_at c.io c.pos buf with
      | .error e => (.error e, c)
      | .ok (n, io2) => (.ok n, ⟨io2, (c.pos + n) % U64⟩) := rfl

theorem cursor_seek_current_def {I : Type} [Size I] (c : Cursor I) (p : Int) :
    Cursor.seek c (.current p) =
      if i64Wrap (u64AsI64 c.pos + p) < 0 then
        (.error ⟨.invalidInput, "seek to a negative position"⟩, c)
      else
        (.ok (i64AsU64 (i64Wrap (u64AsI64 c.pos + p))),
          { c with pos := i64AsU64 (i64Wrap (u64AsI64 c.pos + p)) }) := rfl

theorem cursor_seek_fromEnd_def {I : Type} [Size I] (c : Cursor I) (p : Int) :
    Cursor.seek c (.fromEnd p) =
      match Size.size c.io with
      | .error e => (.error e, c)
      | .ok none => (.error ⟨.invalidInput, "seek from unknown end"⟩, c)
      | .ok (some n) =>
          (.ok (i64AsU64 (i64Wrap (u64AsI64 n + p))),
            { c with pos := i64AsU64 (i64Wrap (u64AsI64 n + p)) }) := rfl

/-! Arithmetic facts about the `u64`/`i64` cast helpers. -/

theorem i64Wrap_eq_self {x : Int} (h1 : -(2 ^ 63) ≤ x) (h2 : x < 2 ^ 63) :
    i64Wrap x = x := by
  unfold i64Wrap
  omega

theorem u64AsI64_eq_self {n : Nat} (h : n < 2 ^ 63) : u64AsI64 n = n := by
  unfold u64AsI64
  rw [if_pos h]

theorem i64AsU64_eq_toNat {x : Int} (h1 : 0 ≤ x) (h2 : x < 2 ^ 64) :
    i64AsU64 x = x.toNat := by
  unfold i64AsU64
  rw [Int.emod_eq_of_lt h1 h2]

/-- The composite `(end as i64 + p) as u64` of the `SeekFrom::End` arm is
exactly addition modulo 2^64. -/
theorem seek_end_cast_chain (n : Nat) (p : Int) :
    i64AsU64 (i64Wrap (u64AsI64 n + p)) = (((n : Int) + p) % (2 ^ 64 : Int)).toNat := by
  unfold i64AsU64 i64Wrap u64AsI64
  split
  · omega
  · omega

/-- Claim C1. Slice containment: for a `Slice` over the range `[a, b)` of a
byte resource holding at least `b` bytes, `read_at pos buf` returns zero
bytes (buffer untouched) once `pos ≥ b - a`, and for `pos < b - a` it
returns `min buf.length (b - a - pos)` bytes taken from the resource at
offset `a + pos`, leaving the rest of the buffer untouched. -/
theorem slice_containment (data : List Nat) (a b pos : Nat) (buf : List Nat)
    (hb : b ≤ data.length) (hlen : data.length < U64) :
    (b - a ≤ pos →
      ReadAt.read_at (Slice.new (ByteStore.mk data) ⟨.included a, .excluded b⟩) pos buf
        = .ok (0, buf)) ∧
    (pos < b - a →
      ReadAt.read_at (Slice.new (ByteStore.mk data) ⟨.included a, .excluded b⟩) pos buf
        = .ok (min buf.length (b - a - pos),
            (data.drop (a + pos)).take (min buf.length (b - a - pos))
              ++ buf.drop (min buf.length (b - a - pos)))) := by
  rw [slice_new_excluded]
  constructor
  · intro h
    rw [slice_read_at_def, byteStore_read_at_def]
    have h0 : b - a - pos = 0 := Nat.sub_eq_zero_of_le h
    simp [h0]
  · intro h
    rw [slice_read_at_def, byteStore_read_at_def]
    have hmod : (pos + a) % U64 = pos + a := by
      apply Nat.mod_eq_of_lt
      unfold U64 at *
      omega
    rw [hmod]
    have hk : min (b - a - pos) buf.length = min buf.length (b - a - pos) :=
      Nat.min_comm _ _
    set k := min buf.length (b - a - pos) with hkdef
    have hk1 : (buf.take (min (b - a - pos) buf.length)).length = k := by
      rw [hk, List.length_take]
      omega
    have hn : min (buf.take (min (b - a - pos) buf.length)).length
        (data.length - (pos + a)) = k := by
      rw [hk1]
      omega
    rw [hn]
    have hdrop : (buf.take (min (b - a - pos) buf.length)).drop k = [] := by
      apply List.drop_eq_nil_of_le
      rw [hk1]
    rw [hdrop, hk]
    have hpa : pos + a = a + pos := Nat.add_comm _ _
    rw [hpa, List.append_nil]

/-- Witness for C1: the spec's own example, a 10-byte resource sliced to
`4..8`, read at position 2 into a 4-byte buffer. -/
theorem slice_containment_witness :
    ReadAt.read_at (Slice.new (ByteStore.mk [0, 1, 2, 3, 4, 5, 6, 7, 8, 9])
        ⟨.included 4, .excluded 8⟩) 2 [0, 0, 0, 0]
      = .ok (2, [6, 7, 0, 0]) := by
  have h := (slice_containment [0, 1, 2, 3, 4, 5, 6, 7, 8, 9] 4 8 2 [0, 0, 0, 0]
    (by decide) (by decide)).2 (by decide)
  rw [h]
  decide

/-- Counterexample to claim C2 as stated: a `Cursor` at position `2^63`
given `seek(Current(0))` targets the non-negative position `2^63 + 0`,
yet the call fails (the source computes `self.pos as i64`, which
reinterprets `2^63` as a negative `i64`) — and the position stays put. -/
theorem cursor_seek_current_counterexample :
    (0 : Int) ≤ (2 ^ 63 : Int) + 0 ∧
    (Cursor.seek (Cursor.new_pos (ByteStore.mk []) (2 ^ 63)) (.current 0)).1
      = .error ⟨.invalidInput, "seek to a negative position"⟩ ∧
    (Cursor.seek (Cursor.new_pos (ByteStore.mk []) (2 ^ 63)) (.current 0)).2.pos
      = 2 ^ 63 := by
  refine ⟨by decide, ?_, ?_⟩ <;> decide

/-- Claim C2, amended: for a `Cursor` whose position is below `2^63` (so
the `as i64` cast is value-preserving) and a delta with
`pos + delta < 2^63` (so the `i64` sum does not overflow),
`seek(Current(delta))` fails with an invalid-input error and leaves the
position unchanged when `pos + delta` is negative, and otherwise succeeds
setting the position to `pos + delta`. -/
theorem cursor_seek_current_amended {I : Type} [Size I] (io : I) (pos : Nat) (delta : Int)
    (hpos : pos < 2 ^ 63) (hlo : -(2 ^ 63) ≤ delta) (hhi : (pos : Int) + delta < 2 ^ 63) :
    ((pos : Int) + delta < 0 →
      Cursor.seek (Cursor.new_pos io pos) (.current delta)
        = (.error ⟨.invalidInput, "seek to a negative position"⟩, Cursor.new_pos io pos)) ∧
    (0 ≤ (pos : Int) + delta →
      Cursor.seek (Cursor.new_pos io pos) (.current delta)
        = (.ok ((pos : Int) + delta).toNat,
            Cursor.new_pos io ((pos : Int) + delta).toNat)) := by
  have hcast : u64AsI64 (Cursor.new_pos io pos).pos = (pos : Int) :=
    u64AsI64_eq_self hpos
  have hwrap : i64Wrap ((pos : Int) + delta) = (pos : Int) + delta := by
    apply i64Wrap_eq_self
    · have : (0 : Int) ≤ (pos : Int) := Int.natCast_nonneg pos
      omega
    · exact hhi
  constructor
  · intro hneg
    rw [cursor_seek_current_def, hcast, hwrap, if_pos hneg]
  · intro hpos2
    rw [cursor_seek_current_def, hcast, hwrap, if_neg (by omega)]
    have : i64AsU64 ((pos : Int) + delta) = ((pos : Int) + delta).toNat := by
      apply i64AsU64_eq_toNat hpos2
      omega
    rw [this]
    rfl

/-- Witness for C2 (amended): the spec's example — a cursor at position 5
seeking `Current(-10)` fails and the position stays 5. -/
theorem cursor_seek_current_witness :
    Cursor.seek (Cursor.new_pos (ByteStore.mk []) 5) (.current (-10))
      = (.error ⟨.invalidInput, "seek to a negative position"⟩,
          Cursor.new_pos (ByteStore.mk []) 5) :=
  (cursor_seek_current_amended (ByteStore.mk []) 5 (-10)
    (by decide) (by decide) (by decide)).1 (by decide)

/-- Counterexample to claim C3 as stated: composing two unbounded slices
(`a = b = 0`) and reading at `pos = 2^64 - 1` returns 0 bytes — the outer
slice's sentinel size `u64::MAX` clips the buffer to zero — while reading
the innermost resource (which fills any buffer with 1s) directly at the
composed offset `0 + 0 + pos` returns 1 byte. -/
theorem slice_composition_counterexample :
    ReadAt.read_at (Slice.new (Slice.new onesRes ⟨.included 0, .unbounded⟩)
        ⟨.included 0, .unbounded⟩) U64MAX [42]
      = .ok (0, [42]) ∧
    ReadAt.read_at onesRes (0 + 0 + U64MAX) [42] = .ok (1, [1]) := by
  constructor <;> decide

/-- Claim C3, amended: nested-slice address translation composes exactly —
reading `Slice::new(Slice::new(io, a..), b..)` at `pos` equals reading the
innermost resource at `a + b + pos` — provided the access stays below the
`u64::MAX` sentinel, i.e. `a + b + pos + buf.length ≤ 2^64 - 1`. -/
theorem slice_composition_amended (f : Nat → List Nat → Except IoErr (Nat × List Nat))
    (a b pos : Nat) (buf : List Nat)
    (h : a + b + pos + buf.length ≤ U64MAX) :
    ReadAt.read_at (Slice.new (Slice.new (FunRes.mk f) ⟨.included a, .unbounded⟩)
        ⟨.included b, .unbounded⟩) pos buf
      = ReadAt.read_at (FunRes.mk f) (a + b + pos) buf := by
  rw [slice_new_unbounded, slice_new_unbounded, slice_read_at_def]
  have hmin1 : min (U64MAX - pos) buf.length = buf.length := by
    unfold U64MAX at *
    omega
  have hmod1 : (pos + b) % U64 = pos + b := by
    apply Nat.mod_eq_of_lt
    unfold U64MAX at h
    unfold U64
    omega
  rw [hmin1, List.take_length, List.drop_length, hmod1, slice_read_at_def]
  have hmin2 : min (U64MAX - (pos + b)) buf.length = buf.length := by
    unfold U64MAX at *
    omega
  have hmod2 : (pos + b + a) % U64 = pos + b + a := by
    apply Nat.mod_eq_of_lt
    unfold U64MAX at h
    unfold U64
    omega
  rw [hmin2, List.take_length, List.drop_length, hmod2, funRes_read_at_def,
    funRes_read_at_def, show a + b + pos = pos + b + a by omega]
  cases hf : f (pos + b + a) buf with
  | error e => rfl
  | ok v => cases v with | mk n pre => simp

/-- Witness for C3 (amended): two nested slices with offsets 1 and 2, read
at position 3 against the always-fills resource. -/
theorem slice_composition_witness :
    ReadAt.read_at (Slice.new (Slice.new onesRes ⟨.included 1, .unbounded⟩)
        ⟨.included 2, .unbounded⟩) 3 [5, 5]
      = ReadAt.read_at onesRes (1 + 2 + 3) [5, 5] :=
  slice_composition_amended onesRes.f 1 2 3 [5, 5] (by decide)

/-- Counterexample to claim C9 as stated: an unbounded slice
`Slice::new(io, 0..)` read at `pos = 2^64 - 1` does NOT pass the full
buffer through — `avail` clips it to zero against the sentinel size — so
the slice returns 0 bytes while the wrapped resource itself would return
1 byte at that offset. -/
theorem slice_unbounded_counterexample :
    ReadAt.read_at (Slice.new onesRes ⟨.included 0, .unbounded⟩) U64MAX [7]
      = .ok (0, [7]) ∧
    ReadAt.read_at onesRes (0 + U64MAX) [7] = .ok (1, [1]) := by
  constructor <;> decide

/-- Claim C9, amended: an unbounded slice `Slice::new(io, a..)` has
`size()` returning `Ok(None)`, and a read is passed through unclipped to
the wrapped object at offset `a + pos` provided
`a + pos + buf.length ≤ 2^64 - 1` (at larger positions the sentinel size
`u64::MAX` itself clips the buffer). -/
theorem slice_unbounded_amended (f : Nat → List Nat → Except IoErr (Nat × List Nat))
    (a pos : Nat) (buf : List Nat)
    (h : a + pos + buf.length ≤ U64MAX) :
    Size.size (Slice.new (FunRes.mk f) ⟨.included a, .unbounded⟩) = .ok none ∧
    ReadAt.read_at (Slice.new (FunRes.mk f) ⟨.included a, .unbounded⟩) pos buf
      = ReadAt.read_at (FunRes.mk f) (a + pos) buf := by
  rw [slice_new_unbounded]
  constructor
  · rw [slice_size_def, if_pos rfl]
  · rw [slice_read_at_def]
    have hmin : min (U64MAX - pos) buf.length = buf.length := by
      unfold U64MAX at *
      omega
    have hmod : (pos + a) % U64 = pos + a := by
      apply Nat.mod_eq_of_lt
      unfold U64MAX at h
      unfold U64
      omega
    rw [hmin, List.take_length, List.drop_length, hmod, funRes_read_at_def,
      funRes_read_at_def, show a + pos = pos + a by omega]
    cases hf : f (pos + a) buf with
    | error e => rfl
    | ok v => cases v with | mk n pre => simp

/-- Witness for C9 (amended): an unbounded slice at offset 4 read at
position 2 passes the 3-byte buffer through and reports `size` unknown. -/
theorem slice_unbounded_witness :
    Size.size (Slice.new onesRes ⟨.included 4, .unbounded⟩) = .ok none ∧
    ReadAt.read_at (Slice.new onesRes ⟨.included 4, .unbounded⟩) 2 [9, 9, 9]
      = ReadAt.read_at onesRes (4 + 2) [9, 9, 9] :=
  slice_unbounded_amended onesRes.f 4 2 [9, 9, 9] (by decide)

/-- Claim C10. A fully clipped slice access (`pos` at or past the slice's
size) still delegates to the wrapped object: the read and the write each
call the wrapped object with the empty buffer at the translated offset
`pos + offset` (u64 addition), and the wrapped object's answer — a byte
count or an error — is returned as is, never short-circuited to `Ok(0)`
by the slice layer. -/
theorem slice_clipped_delegates (f : Nat → List Nat → Except IoErr (Nat × List Nat))
    (g : Nat → List Nat → Except IoErr Nat) (log : List (Nat × List Nat))
    (o sz pos : Nat) (buf : List Nat) (h : sz ≤ pos) :
    (ReadAt.read_at (Slice.mk (FunRes.mk f) o sz) pos buf
      = match f ((pos + o) % U64) [] with
        | .ok (n, pre) => .ok (n, pre ++ buf)
        | .error e => .error e) ∧
    (WriteAt.write_at (Slice.mk (FunWRes.mk g log) o sz) pos buf
      = match g ((pos + o) % U64) [] with
        | .ok n => .ok (n, Slice.mk (FunWRes.mk g (log ++ [((pos + o) % U64, [])])) o sz)
        | .error e => .error e) := by
  have h0 : sz - pos = 0 := Nat.sub_eq_zero_of_le h
  constructor
  · rw [slice_read_at_def, funRes_read_at_def, h0]
    simp only [Nat.zero_min, List.take_zero, List.drop_zero]
  · rw [slice_write_at_def, funWRes_write_at_def, h0]
    simp only [Nat.zero_min, List.take_zero]
    cases hg : g ((pos + o) % U64) [] with
    | error e => rfl
    | ok n => rfl

/-- Witness for C10: a wrapped resource that always fails makes a fully
clipped slice read fail with that very error instead of `Ok(0)`. -/
theorem slice_clipped_delegates_witness :
    ReadAt.read_at (Slice.mk (FunRes.mk fun _ _ => .error ⟨.other, "boom"⟩) 1 2) 5 [9]
      = .error ⟨.other, "boom"⟩ := by
  have h := (slice_clipped_delegates (fun _ _ => .error ⟨.other, "boom"⟩)
    (fun _ _ => .ok 0) [] 1 2 5 [9] (by decide)).1
  rw [h]

/-- Claim C4. Slice write clipping: for a `Slice` over `[a, b)` of a
writable byte resource, a write at `pos ≥ b - a` transfers 0 bytes and
leaves everything unchanged; a write at `pos < b - a` delegates exactly
the truncated buffer `buf.take (min buf.length (b - a - pos))` to the
wrapped object at offset `a + pos` — a range that never crosses the slice
boundary (`pos + k ≤ b - a`) — succeeds, and returns the truncated
count. -/
theorem slice_write_clipping (data : List Nat) (a b pos : Nat) (buf : List Nat)
    (hbU : b < U64) :
    (b - a ≤ pos →
      WriteAt.write_at (Slice.new (ByteStore.mk data) ⟨.included a, .excluded b⟩) pos buf
        = .ok (0, Slice.new (ByteStore.mk data) ⟨.included a, .excluded b⟩)) ∧
    (pos < b - a →
      pos + min buf.length (b - a - pos) ≤ b - a ∧
      ∃ st2,
        WriteAt.write_at (ByteStore.mk data) (a + pos)
            (buf.take (min buf.length (b - a - pos)))
          = .ok (min buf.length (b - a - pos), st2) ∧
        WriteAt.write_at (Slice.new (ByteStore.mk data) ⟨.included a, .excluded b⟩) pos buf
          = .ok (min buf.length (b - a - pos), Slice.mk st2 a (b - a))) := by
  rw [slice_new_excluded]
  constructor
  · intro h
    rw [slice_write_at_def, byteStore_write_at_def]
    have h0 : b - a - pos = 0 := Nat.sub_eq_zero_of_le h
    simp [h0]
  · intro h
    set k := min buf.length (b - a - pos) with hkdef
    have hmin : min (b - a - pos) buf.length = k := by omega
    have hmod : (pos + a) % U64 = pos + a := by
      apply Nat.mod_eq_of_lt
      unfold U64 at *
      omega
    have htlen : (buf.take k).length = k := by
      rw [List.length_take]
      omega
    refine ⟨by omega, ?_⟩
    have hinner : ∃ st2,
        WriteAt.write_at (ByteStore.mk data) (a + pos) (buf.take k) = .ok (k, st2) := by
      rw [byteStore_write_at_def, htlen]
      by_cases hk0 : k = 0
      · exact ⟨ByteStore.mk data, by rw [if_pos hk0, hk0]⟩
      · exact ⟨_, by rw [if_neg hk0]⟩
    obtain ⟨st2, hst2⟩ := hinner
    refine ⟨st2, hst2, ?_⟩
    rw [slice_write_at_def, hmin, hmod, show pos + a = a + pos by omega, hst2]

/-- Witness for C4: the spec's example — writing 3 bytes one position
before the declared end of a `0..5` slice writes exactly 1 byte and
returns a transferred count of 1, with no error. -/
theorem slice_write_clipping_witness :
    WriteAt.write_at (Slice.new (ByteStore.mk [0, 1, 2, 3, 4, 5])
        ⟨.included 0, .excluded 5⟩) 4 [9, 9, 9]
      = .ok (1, Slice.mk (ByteStore.mk [0, 1, 2, 3, 9, 5]) 0 5) := by
  have h := ((slice_write_clipping [0, 1, 2, 3, 4, 5] 0 5 4 [9, 9, 9]
    (by decide)).2 (by decide)).2
  obtain ⟨st2, hst2, hslice⟩ := h
  rw [hslice]
  have : st2 = ByteStore.mk [0, 1, 2, 3, 9, 5] := by
    have h2 := hst2.symm.trans (byteStore_write_at_def (ByteStore.mk [0, 1, 2, 3, 4, 5])
      (0 + 4) ([9, 9, 9].take (min 3 (5 - 0 - 4))))
    simp only [show min (3 : Nat) (5 - 0 - 4) = 1 by decide] at h2 ⊢
    cases h2
    decide
  rw [this]
  decide

/-- Counterexample to claim C6 as stated: on a resource of definite size
5, `seek(End(-10))` does not land on "size + delta" (which would be the
negative position −5) and raises no error — the source casts the sum to
`u64`, so the call succeeds and the position becomes `2^64 - 5`. -/
theorem cursor_seek_end_counterexample :
    ((5 : Int) + (-10) < 0) ∧
    Cursor.seek (Cursor.new_pos (SizedRes.mk (.ok (some 5))) 0) (.fromEnd (-10))
      = (.ok (U64 - 5), Cursor.new_pos (SizedRes.mk (.ok (some 5))) (U64 - 5)) := by
  constructor <;> decide

/-- Claim C6, amended: `seek(End(delta))` fails with an invalid-input
error, leaving the position unchanged, when the wrapped object reports an
unknown size; on a definite size `n` it always succeeds and the position
becomes `(n + delta) mod 2^64` — which equals `n + delta` exactly when
`0 ≤ n + delta < 2^64` (a negative `n + delta` silently wraps instead of
erroring). -/
theorem cursor_seek_end_amended (pos n : Nat) (delta : Int) :
    Cursor.seek (Cursor.new_pos (SizedRes.mk (.ok none)) pos) (.fromEnd delta)
      = (.error ⟨.invalidInput, "seek from unknown end"⟩,
          Cursor.new_pos (SizedRes.mk (.ok none)) pos) ∧
    Cursor.seek (Cursor.new_pos (SizedRes.mk (.ok (some n))) pos) (.fromEnd delta)
      = (.ok ((((n : Int) + delta) % (2 ^ 64 : Int)).toNat),
          Cursor.new_pos (SizedRes.mk (.ok (some n)))
            ((((n : Int) + delta) % (2 ^ 64 : Int)).toNat)) ∧
    (0 ≤ (n : Int) + delta → (n : Int) + delta < 2 ^ 64 →
      (((n : Int) + delta) % (2 ^ 64 : Int)).toNat = ((n : Int) + delta).toNat) := by
  refine ⟨rfl, ?_, ?_⟩
  · rw [← seek_end_cast_chain n delta]
    rfl
  · intro h1 h2
    rw [Int.emod_eq_of_lt h1 h2]

/-- Witness for C6 (amended): a resource of size 10, `seek(End(-3))`
succeeds and positions the cursor at 7. -/
theorem cursor_seek_end_witness :
    Cursor.seek (Cursor.new_pos (SizedRes.mk (.ok (some 10))) 0) (.fromEnd (-3))
      = (.ok 7, Cursor.new_pos (SizedRes.mk (.ok (some 10))) 7) := by
  have h := cursor_seek_end_amended 0 10 (-3)
  have h7 : ((((10 : Nat) : Int) + (-3)) % (2 ^ 64 : Int)).toNat
      = (((10 : Nat) : Int) + (-3)).toNat :=
    h.2.2 (by decide) (by decide)
  rw [h.2.1, h7]
  decide

/-- Counterexample to claim C7 as stated: `seek(End(-4))` on a resource
of definite size 3 requests the negative absolute position −1, yet it is
NOT reported as an error and it DOES mutate the cursor: the call returns
`Ok(2^64 - 1)` and moves the position from 7 to `2^64 - 1`. -/
theorem cursor_seek_invalid_counterexample :
    ((3 : Int) + (-4) < 0) ∧
    Cursor.seek (Cursor.new_pos (SizedRes.mk (.ok (some 3))) 7) (.fromEnd (-4))
      = (.ok (U64 - 1), Cursor.new_pos (SizedRes.mk (.ok (some 3))) (U64 - 1)) := by
  constructor <;> decide

/-- Claim C7, amended: the invalid seeks the code detects — a
`Current(delta)` seek whose target `pos + delta` is negative, and an
`End` seek when the size is unknown — fail with the invalid-seek error
and leave the cursor position unchanged; an `End(delta)` seek whose
target `n + delta` is negative is not detected (it wraps modulo 2^64 and
succeeds). -/
theorem cursor_seek_invalid_amended (sz : Except IoErr (Option Nat)) (pos : Nat)
    (delta : Int) (hpos : pos < 2 ^ 63) (hlo : -(2 ^ 63) ≤ delta) :
    ((pos : Int) + delta < 0 →
      Cursor.seek (Cursor.new_pos (SizedRes.mk sz) pos) (.current delta)
        = (.error ⟨.invalidInput, "seek to a negative position"⟩,
            Cursor.new_pos (SizedRes.mk sz) pos)) ∧
    (sz = .ok none →
      Cursor.seek (Cursor.new_pos (SizedRes.mk sz) pos) (.fromEnd delta)
        = (.error ⟨.invalidInput, "seek from unknown end"⟩,
            Cursor.new_pos (SizedRes.mk sz) pos)) := by
  constructor
  · intro hneg
    have hcast : u64AsI64 (Cursor.new_pos (SizedRes.mk sz) pos).pos = (pos : Int) :=
      u64AsI64_eq_self hpos
    have hwrap : i64Wrap ((pos : Int) + delta) = (pos : Int) + delta := by
      apply i64Wrap_eq_self
      · have : (0 : Int) ≤ (pos : Int) := Int.natCast_nonneg pos
        omega
      · have : (0 : Int) ≤ (pos : Int) := Int.natCast_nonneg pos
        omega
    rw [cursor_seek_current_def, hcast, hwrap, if_pos hneg]
  · intro hsz
    rw [cursor_seek_fromEnd_def]
    subst hsz
    rfl

/-- Witness for C7 (amended): an end-relative seek on a size-unaware
resource fails and leaves the position at 5. -/
theorem cursor_seek_invalid_witness :
    Cursor.seek (Cursor.new_pos (SizedRes.mk (.ok none)) 5) (.fromEnd 3)
      = (.error ⟨.invalidInput, "seek from unknown end"⟩,
          Cursor.new_pos (SizedRes.mk (.ok none)) 5) :=
  (cursor_seek_invalid_amended (.ok none) 5 3 (by decide) (by decide)).2 rfl

/-- Counterexample to claim C8 as stated: when the wrapped object's size
query fails with a genuine I/O error, `Slice::new_to_end` does not
propagate that error verbatim — the catch-all match arm replaces it with
the `InvalidData` "unknown base size" error. -/
theorem slice_new_to_end_counterexample :
    Slice.new_to_end (SizedRes.mk (.error ⟨.other, "disk failure"⟩)) 0
      = .error ⟨.invalidData, "unknown base size"⟩ ∧
    Slice.new_to_end (SizedRes.mk (.error ⟨.other, "disk failure"⟩)) 0
      ≠ .error ⟨.other, "disk failure"⟩ := by
  constructor <;> decide

/-- Claim C8, amended: `Slice::new_to_end(io, offset)` fails with the
`InvalidData` "unknown base size" error both when the size query returns
`Ok(None)` and when it returns any I/O error (the underlying error is
replaced, not propagated); on `Ok(Some(n))` it succeeds with the slice
`offset..n`, i.e. offset `offset` and size `n - offset`. -/
theorem slice_new_to_end_amended (off n : Nat) (e : IoErr) :
    Slice.new_to_end (SizedRes.mk (.ok none)) off
      = .error ⟨.invalidData, "unknown base size"⟩ ∧
    Slice.new_to_end (SizedRes.mk (.error e)) off
      = .error ⟨.invalidData, "unknown base size"⟩ ∧
    Slice.new_to_end (SizedRes.mk (.ok (some n))) off
      = .ok (Slice.mk (SizedRes.mk (.ok (some n))) off (n - off)) :=
  ⟨rfl, rfl, rfl⟩

/-- Claim C5. Cursor round-trip: writing a payload through a `Cursor`
starting at position `P` over a byte-addressable backing resource
transfers all its bytes, and a fresh `Cursor` at position `P` then reads
back exactly the original payload. -/
theorem cursor_round_trip (data payload buf0 : List Nat) (P : Nat)
    (hbuf : buf0.length = payload.length) :
    (Cursor.write (Cursor.new_pos (ByteStore.mk data) P) payload).1
      = .ok payload.length ∧
    (Cursor.read (Cursor.new_pos
        ((Cursor.write (Cursor.new_pos (ByteStore.mk data) P) payload).2.io) P) buf0).1
      = .ok (payload.length, payload) := by
  rw [cursor_write_def, byteStore_write_at_def]
  by_cases h0 : payload.length = 0
  · rw [if_pos h0]
    have hp : payload = [] := List.length_eq_zero.mp h0
    have hb : buf0 = [] := List.length_eq_zero.mp (hbuf.trans h0)
    subst hp hb
    refine ⟨rfl, ?_⟩
    show (Cursor.read (Cursor.new_pos (ByteStore.mk data) P) []).1
      = .ok (([] : List Nat).length, [])
    rw [cursor_read_def, byteStore_read_at_def]
    simp
  · rw [if_neg h0]
    set N := payload.length with hN
    set padded := data ++ List.replicate ((P + N) - data.length) 0 with hpadded
    set store2 := padded.take P ++ payload ++ padded.drop (P + N) with hstore2
    refine ⟨rfl, ?_⟩
    show (Cursor.read (Cursor.new_pos (ByteStore.mk store2) P) buf0).1
      = .ok (N, payload)
    have hplen : P + N ≤ padded.length := by
      rw [hpadded, List.length_append, List.length_replicate]
      omega
    have htakeP : (padded.take P).length = P := by
      rw [List.length_take]
      omega
    have hslen : store2.length = padded.length := by
      rw [hstore2]
      simp only [List.length_append, htakeP, List.length_drop]
      omega
    have hn : min buf0.length (store2.length - P) = N := by
      rw [hbuf, hslen]
      omega
    have hdropP : store2.drop P = payload ++ padded.drop (P + N) := by
      rw [hstore2, List.append_assoc]
      exact List.drop_left' htakeP
    have htakeN : (store2.drop P).take N = payload := by
      rw [hdropP]
      exact List.take_left' hN.symm
    have hdropN : buf0.drop N = [] :=
      List.drop_eq_nil_of_le (le_of_eq hbuf)
    rw [cursor_read_def, byteStore_read_at_def]
    simp only [Cursor.new_pos]
    rw [hn, htakeN, hdropN, List.append_nil]

/-- Witness for C5: writing `[7, 8]` at position 6 over a 3-byte store
(zero-filling the gap), then reading 2 bytes at position 6, returns
`[7, 8]`. -/
theorem cursor_round_trip_witness :
    (Cursor.write (Cursor.new_pos (ByteStore.mk [1, 2, 3]) 6) [7, 8]).1 = .ok 2 ∧
    (Cursor.read (Cursor.new_pos
        ((Cursor.write (Cursor.new_pos (ByteStore.mk [1, 2, 3]) 6) [7, 8]).2.io) 6)
        [0, 0]).1
      = .ok (2, [7, 8]) :=
  cursor_round_trip [1, 2, 3] [7, 8] [0, 0] 6 (by decide)

end PositionedIo
